import Mathlib

/-!
A shallow embedding of smcroute's configuration parser (`src/conf.c`) and
proofs about it.  The embedding models the build without IPv6 multicast
support (neither `HAVE_IPV6_MULTICAST_HOST` nor `HAVE_IPV6_MULTICAST_ROUTING`
defined), so the `#if` branches that compile in that configuration are the
ones translated here.  Backend functions (`mcgroup4_join`, `mroute4_add`,
`mroute_add_vif`, `mroute_del_vif`, `script_exec`) and log output (`smclog`
via the `WARN` macro) are modelled as events appended to a trace; backend
calls are modelled as succeeding (returning 0), so a nonzero result of an
applier function marks an operand rejection, exactly as in the source where
every reject path returns 1 before any backend call.
-/

/-- C `isspace` over the ASCII whitespace class, as used by `pop_token`. -/
def isspace (c : Char) : Bool :=
  c == ' ' || c == '\t' || c == '\n' || c == '\x0b' || c == '\x0c' || c == '\r'

/-- `matchChars ks ts` is true when `ks` is a leading segment of `ts`.
This is `strncmp(keyword, token, strlen(keyword)) == 0`. -/
def matchChars : List Char → List Char → Bool
  | [], _ => true
  | _ :: _, [] => false
  | k :: ks, t :: ts => k == t && matchChars ks ts

/-- `match(keyword, token)` from conf.c: the keyword must be a leading
segment of the token (`strncmp` over the keyword's length). -/
def strMatch (keyword token : String) : Bool :=
  matchChars keyword.data token.data

/-- Helper for `tokenize`: accumulate the current token (reversed) while
scanning the line.  A final token that runs into the end of the line is
dropped: `pop_token` returns NULL when `*end == 0`, i.e. when the token is
not followed by any terminator character.  (Lines read by `fgets` normally
end in a newline, so this only affects unterminated final lines.) -/
def tokenizeAux (acc : List Char) : List Char → List String
  | [] => []
  | c :: cs =>
    if isspace c then
      if acc.isEmpty then tokenizeAux [] cs
      else String.mk acc.reverse :: tokenizeAux [] cs
    else tokenizeAux (c :: acc) cs

/-- The token sequence produced by repeated `pop_token` calls on a line. -/
def tokenize (s : String) : List String :=
  tokenizeAux [] s.data

/-- Digit value of an ASCII character, if it is a digit. -/
def digitVal (c : Char) : Option Nat :=
  if '0' ≤ c ∧ c ≤ '9' then some (c.toNat - 48) else none

/-- Digit-prefix accumulation for C `atoi`. -/
def atoiDigits (acc : Int) : List Char → Int
  | [] => acc
  | c :: cs =>
    match digitVal c with
    | some d => atoiDigits (acc * 10 + (d : Int)) cs
    | none => acc

/-- C `atoi`: skip whitespace, optional sign, then the longest digit run;
returns 0 when there are no digits. -/
def atoiSkip : List Char → Int
  | [] => 0
  | c :: cs =>
    if isspace c then atoiSkip cs
    else if c == '-' then - atoiDigits 0 cs
    else if c == '+' then atoiDigits 0 cs
    else atoiDigits 0 (c :: cs)

def atoi (s : String) : Int :=
  atoiSkip s.data

/-- One dotted-quad component: 1-3 digits, value at most 255, no leading
zero (except "0" itself), following the strict presentation format of
`inet_pton(AF_INET, ...)`. -/
def partVal : List Char → Option Nat
  | [c] => digitVal c
  | [c1, c2] =>
    if c1 == '0' then none
    else
      match digitVal c1, digitVal c2 with
      | some a, some b => some (a * 10 + b)
      | _, _ => none
  | [c1, c2, c3] =>
    if c1 == '0' then none
    else
      match digitVal c1, digitVal c2, digitVal c3 with
      | some a, some b, some c =>
        if (a * 10 + b) * 10 + c ≤ 255 then some ((a * 10 + b) * 10 + c) else none
      | _, _, _ => none
  | _ => none

/-- Split a character list at every '.', keeping empty components. -/
def splitDotsAux (acc : List Char) : List Char → List (List Char)
  | [] => [acc.reverse]
  | c :: cs =>
    if c == '.' then acc.reverse :: splitDotsAux [] cs
    else splitDotsAux (c :: acc) cs

/-- `inet_pton(AF_INET, s, ...)`, returning the 32-bit address as a natural
number with the first octet most significant (so our value is the host-order
value `ntohl` would produce from the stored network-order bytes). -/
def inet_pton4 (s : String) : Option Nat :=
  match (splitDotsAux [] s.data).mapM partVal with
  | some [a, b, c, d] => some (((a * 256 + b) * 256 + c) * 256 + d)
  | _ => none

/-- The `IN_MULTICAST` test on a host-order IPv4 address:
`(a & 0xf0000000) == 0xe0000000`, i.e. the top nibble is 0xe. -/
def IN_MULTICAST (a : Nat) : Bool :=
  a / 268435456 == 14

/-- Split a group literal at the first '/', as `strchr(group, '/')` followed
by `*ptr++ = 0` does: the part before the slash and, when a slash is
present, the remainder after it. -/
def splitSlashChars : List Char → List Char × Option (List Char)
  | [] => ([], none)
  | c :: cs =>
    if c == '/' then ([], some cs)
    else
      match splitSlashChars cs with
      | (a, r) => (c :: a, r)

def splitSlash (g : String) : String × Option String :=
  match splitSlashChars g.data with
  | (a, some r) => (String.mk a, some (String.mk r))
  | (a, none) => (String.mk a, none)

/-- Modelled from the spec: an entry of the backend interface table
(`struct iface` from the interface discovery subsystem, whose source is not
part of this tree).  Per the spec, interface resolution uses the backend's
name→index table; `vif` is -1 when the interface has no virtual index, and
`threshold` is the interface's configured TTL threshold. -/
structure Iface where
  name : String
  vif : Int
  threshold : Nat

/-- Modelled from the spec: `iface_find_by_name`, first table entry with a
matching name. -/
def iface_find_by_name (env : List Iface) (ifname : String) : Option Iface :=
  env.find? (fun i => i.name == ifname)

/-- Modelled from the spec: `iface_get_vif_by_name`, the vif of the named
interface, or a negative value when the name does not resolve. -/
def iface_get_vif_by_name (env : List Iface) (ifname : String) : Int :=
  match iface_find_by_name env ifname with
  | some i => i.vif
  | none => -1

/-- Modelled from the spec: default TTL threshold for `phyint` (conf.h's
`DEFAULT_THRESHOLD`); the spec fixes it at 1. -/
def DEFAULT_THRESHOLD : Int := 1

/-- `struct mroute4` as used by conf.c: inbound vif, source and group
addresses (host-order values of the stored network-order words), prefix
length, and the TTL vector indexed by vif (`memset` initialises it to 0). -/
structure MRoute4 where
  inbound : Int
  source : Nat
  group : Nat
  len : Int
  ttl : Int → Nat

/-- The argument part of each distinct `WARN`/`smclog` format string used by
conf.c's directive processing (the `"%02d: "` line prefix of the `WARN`
macro is the line number carried by `Event.warn`). -/
inductive WarnMsg where
  /-- "Unknown command %s, skipping." -/
  | unknownCommand (token : String)
  /-- "Ignored, IPv6 disabled." -/
  | ignoredIPv6
  /-- "Invalid IPv4 multicast source: %s" (join_mgroup) -/
  | invalidGroupSource4 (s : String)
  /-- "Invalid IPv4 multicast group: %s" -/
  | invalidGroup4 (g : String)
  /-- "Invalid source IPv4 address: %s" (add_mroute) -/
  | invalidRouteSource4 (s : String)
  /-- "Invalid inbound IPv4 interface: %s" -/
  | invalidInbound4 (i : String)
  /-- "Invalid outbound IPv4 interface: %s" -/
  | invalidOutbound4 (o : String)
  /-- "Same outbound IPv4 interface (%s) as inbound (%s)?" -/
  | sameOutbound4 (o i : String)
  /-- "No valid outbound IPv4 interfaces, skipping multicast route." -/
  | noValidOutbound4
  /-- "GROUP/LEN not yet supported for source specific multicast." -/
  | ssmWithLen
  /-- "Invalid prefix length, %s/%d" -/
  | invalidLen (g : String) (len : Int)

/-- Messages logged by `conf_read` (no line-number prefix). -/
inductive LogMsg where
  /-- NOTICE "Configuration file %s does not exist" -/
  | noFile (file : String)
  /-- WARNING "Unexpected error when accessing %s: %s" -/
  | accessError (file : String)
  /-- NOTICE "Continuing anyway, waiting for client to connect." -/
  | continuing
  /-- WARNING "Failed parsing %s: %s" -/
  | failedParsing (file : String)

/-- The observable trace: log lines and calls into the kernel-facing
backend.  `mcgroup6_join` and `mroute6_add` are the IPv6 backend entry
points; in the IPv6-disabled build modelled here they are never emitted,
and they are kept in the type so that their absence is a meaningful
statement. -/
inductive Event where
  | warn (lineno : Nat) (msg : WarnMsg)
  | smclogNotice (m : LogMsg)
  | smclogWarn (m : LogMsg)
  | mcgroup4_join (ifname : String) (source group : Nat)
  | mcgroup6_join (ifname : String) (group : String)
  | mroute4_add (m : MRoute4)
  | mroute6_add
  | mroute_add_vif (ifname : Option String) (threshold : Int)
  | mroute_del_vif (ifname : Option String)
  | script_exec

/-- Backend mutations: vif add/del, group joins, mroute installs. -/
def isBackend : Event → Bool
  | .mcgroup4_join _ _ _ => true
  | .mcgroup6_join _ _ => true
  | .mroute4_add _ => true
  | .mroute6_add => true
  | .mroute_add_vif _ _ => true
  | .mroute_del_vif _ => true
  | _ => false

/-- The IPv6 backend entry points. -/
def isIPv6Backend : Event → Bool
  | .mcgroup6_join _ _ => true
  | .mroute6_add => true
  | _ => false

/-- The post-apply hook invocation. -/
def isScript : Event → Bool
  | .script_exec => true
  | _ => false

/-- Counts the "Invalid outbound IPv4 interface" warnings in a trace. -/
def isInvalidOutWarn : Event → Bool
  | .warn _ (.invalidOutbound4 _) => true
  | _ => false

/-- `join_mgroup`'s IPv4 tail: parse the group, require `IN_MULTICAST`,
then call `mcgroup4_join(ifname, src, grp)`. -/
def join_mgroup4 (lineno : Nat) (ifn : String) (srcA : Nat) (g : String) : Int × List Event :=
  match inet_pton4 g with
  | none => (1, [Event.warn lineno (WarnMsg.invalidGroup4 g)])
  | some ga =>
    if IN_MULTICAST ga then (0, [Event.mcgroup4_join ifn srcA ga])
    else (1, [Event.warn lineno (WarnMsg.invalidGroup4 g)])

/-- `join_mgroup(lineno, ifname, source, group)`.  A missing interface or
group returns 1 (errno EINVAL) with no output.  A group containing ':'
takes the IPv6 branch, which in this build only logs "Ignored, IPv6
disabled." and succeeds.  Otherwise the IPv4 source (defaulting to 0 via
`memset`) and group are parsed and `mcgroup4_join` is called. -/
def join_mgroup (lineno : Nat) (ifname source group : Option String) : Int × List Event :=
  match ifname, group with
  | some ifn, some g =>
    if g.data.contains ':' then (0, [Event.warn lineno WarnMsg.ignoredIPv6])
    else
      match source with
      | some s =>
        match inet_pton4 s with
        | none => (1, [Event.warn lineno (WarnMsg.invalidGroupSource4 s)])
        | some srcA => join_mgroup4 lineno ifn srcA g
      | none => join_mgroup4 lineno ifn 0 g
  | _, _ => (1, [])

/-- Source handling of `add_mroute`: absent means `INADDR_ANY` (0), present
must parse as IPv4. -/
def srcParse (lineno : Nat) (source : Option String) : Except (List Event) Nat :=
  match source with
  | none => Except.ok 0
  | some s =>
    match inet_pton4 s with
    | some a => Except.ok a
    | none => Except.error [Event.warn lineno (WarnMsg.invalidRouteSource4 s)]

/-- Group parsing step of `add_mroute` (after the '/' has been split off):
parse and require a multicast address, then build the `mroute4` record with
its zeroed TTL vector. -/
def mroute4_group (lineno : Nat) (inbound : Int) (srcA : Nat) (gs : String) (len : Int) :
    Except (List Event) MRoute4 :=
  match inet_pton4 gs with
  | none => Except.error [Event.warn lineno (WarnMsg.invalidGroup4 gs)]
  | some ga =>
    if IN_MULTICAST ga then
      Except.ok { inbound := inbound, source := srcA, group := ga, len := len, ttl := fun _ => 0 }
    else Except.error [Event.warn lineno (WarnMsg.invalidGroup4 gs)]

/-- The validation steps of `add_mroute`'s IPv4 path, in source order:
resolve the inbound interface, parse the source (wildcard when absent),
handle a `/LEN` suffix (rejecting it when the source is not the wildcard,
then bounds-checking the length), and parse the group. -/
def mroute4_head (env : List Iface) (lineno : Nat) (ifn g : String) (source : Option String) :
    Except (List Event) MRoute4 :=
  if iface_get_vif_by_name env ifn < 0 then
    Except.error [Event.warn lineno (WarnMsg.invalidInbound4 ifn)]
  else
    match srcParse lineno source with
    | Except.error evs => Except.error evs
    | Except.ok srcA =>
      match splitSlash g with
      | (gs, some ls) =>
        if srcA ≠ 0 then Except.error [Event.warn lineno WarnMsg.ssmWithLen]
        else if atoi ls < 0 ∨ 32 < atoi ls then
          Except.error [Event.warn lineno (WarnMsg.invalidLen gs (atoi ls))]
        else mroute4_group lineno (iface_get_vif_by_name env ifn) srcA gs (atoi ls)
      | (gs, none) => mroute4_group lineno (iface_get_vif_by_name env ifn) srcA gs 0

/-- The outbound loop of `add_mroute`: for each name, a failed lookup (or
`vif == -1`) decrements `total` and warns; a successful one warns when the
vif equals the inbound vif and then stores the interface's threshold in the
TTL slot of its vif. -/
def outboundLoop (env : List Iface) (lineno : Nat) (inbound : Int) (ifn : String) :
    List String → Int → (Int → Nat) → Int × (Int → Nat) × List Event
  | [], total, ttl => (total, ttl, [])
  | n :: rest, total, ttl =>
    match iface_find_by_name env n with
    | none =>
      let r := outboundLoop env lineno inbound ifn rest (total - 1) ttl
      (r.1, r.2.1, Event.warn lineno (WarnMsg.invalidOutbound4 n) :: r.2.2)
    | some i =>
      if i.vif = -1 then
        let r := outboundLoop env lineno inbound ifn rest (total - 1) ttl
        (r.1, r.2.1, Event.warn lineno (WarnMsg.invalidOutbound4 n) :: r.2.2)
      else
        let pre := if i.vif = inbound then [Event.warn lineno (WarnMsg.sameOutbound4 n ifn)] else []
        let r := outboundLoop env lineno inbound ifn rest total (Function.update ttl i.vif i.threshold)
        (r.1, r.2.1, pre ++ r.2.2)

/-- Tail of `add_mroute`: run the outbound loop starting from
`total = num`; if no outbound interface survived, warn and reject,
otherwise call `mroute4_add` with the completed record. -/
def add_mroute_tail (env : List Iface) (lineno : Nat) (ifn : String) (m : MRoute4)
    (outbound : List String) : Int × List Event :=
  let r := outboundLoop env lineno m.inbound ifn outbound (outbound.length : Int) m.ttl
  if r.1 = 0 then (1, r.2.2 ++ [Event.warn lineno WarnMsg.noValidOutbound4])
  else (0, r.2.2 ++ [Event.mroute4_add { m with ttl := r.2.1 }])

/-- `add_mroute(lineno, ifname, group, source, outbound, num)`.  Missing
interface, group or outbound list returns 1 (errno EINVAL) silently.  A
group containing ':' takes the IPv6 branch, which in this build logs
"Ignored, IPv6 disabled." and returns 0.  The IPv4 path validates, runs
the outbound loop and installs the route. -/
def add_mroute (env : List Iface) (lineno : Nat) (ifname group source : Option String)
    (outbound : List String) : Int × List Event :=
  match ifname, group with
  | some ifn, some g =>
    if outbound = [] then (1, [])
    else if g.data.contains ':' then (0, [Event.warn lineno WarnMsg.ignoredIPv6])
    else
      match mroute4_head env lineno ifn g source with
      | Except.error evs => (1, evs)
      | Except.ok m => add_mroute_tail env lineno ifn m outbound
  | _, _ => (1, [])

/-- Per-line parser state of `conf_parse`'s token loop: the directive code
`op` (0 none, 1 mgroup/ssmgroup, 2 mroute, 3 phyint), the operand slots,
the `dest` array contents with the count of slots the loop wrote, the
`enable` flag seeded from `do_vifs`, and the TTL threshold.  `destOOB`
records that the `to` loop performed a store at index 32 or beyond of the
32-slot `dest` array (the store of the terminating NULL included), which in
the C code is an out-of-bounds write. -/
structure PState where
  op : Nat
  ifname : Option String
  source : Option String
  group : Option String
  dest : List String
  destOOB : Bool
  enable : Bool
  threshold : Int

/-- Initial per-line state: `op = 0, num = 0, enable = do_vifs,
threshold = DEFAULT_THRESHOLD`, all operand slots NULL. -/
def initState (do_vifs : Bool) : PState :=
  { op := 0, ifname := none, source := none, group := none, dest := [],
    destOOB := false, enable := do_vifs, threshold := DEFAULT_THRESHOLD }

/-- The operand-keyword chain at the bottom of the token loop, applied to
every token once a directive has been recognised (including the verb token
itself, which matches none of the keywords).  Returns the updated state and
the tokens still to be processed.  `from`/`source`/`group` pop one token
into their slot (NULL when the line is exhausted); `to` pops every
remaining token into `dest`; `enable`/`disable` set the flag;
`ttl-threshold` pops one token and stores `atoi` of it whenever
`num >= 1 || num <= 255` — the source's disjunction, which every integer
satisfies.  Unmatched tokens are ignored. -/
def keywordChain (st : PState) (t : String) (rest : List String) : PState × List String :=
  if strMatch "from" t then
    match rest with
    | [] => ({ st with ifname := none }, [])
    | n :: rest' => ({ st with ifname := some n }, rest')
  else if strMatch "source" t then
    match rest with
    | [] => ({ st with source := none }, [])
    | n :: rest' => ({ st with source := some n }, rest')
  else if strMatch "group" t then
    match rest with
    | [] => ({ st with group := none }, [])
    | n :: rest' => ({ st with group := some n }, rest')
  else if strMatch "to" t then
    ({ st with dest := rest, destOOB := st.destOOB || decide (32 ≤ rest.length) }, [])
  else if strMatch "enable" t then ({ st with enable := true }, rest)
  else if strMatch "disable" t then ({ st with enable := false }, rest)
  else if strMatch "ttl-threshold" t then
    match rest with
    | [] => (st, [])
    | n :: rest' =>
      ({ st with threshold := if 1 ≤ atoi n ∨ atoi n ≤ 255 then atoi n else st.threshold }, rest')
  else (st, rest)

/-- The token loop of `conf_parse`.  The fuel argument only serves to make
the recursion structural; it is instantiated with the token count, and
every step consumes at least one token, so the fuel never runs out.  A
token starting with '#' ends the line (comment).  While `op` is 0 each
token is tested against the four verbs; `phyint` additionally pops the
interface name, downgrading to `op = 0` when it is absent; an unrecognised
token yields an "Unknown command" warning and `continue`s, leaving `op` at
0 so that the next token is again tested as a verb.  Every recognised
token then flows into the keyword chain. -/
def processToks (lineno : Nat) : Nat → PState → List String → PState × List Event
  | 0, st, _ => (st, [])
  | _ + 1, st, [] => (st, [])
  | fuel + 1, st, t :: rest =>
    if strMatch "#" t then (st, [])
    else if st.op = 0 then
      if strMatch "mgroup" t then
        let p := keywordChain { st with op := 1 } t rest
        processToks lineno fuel p.1 p.2
      else if strMatch "mroute" t then
        let p := keywordChain { st with op := 2 } t rest
        processToks lineno fuel p.1 p.2
      else if strMatch "phyint" t then
        match rest with
        | [] =>
          let p := keywordChain { st with op := 0, ifname := none } t []
          processToks lineno fuel p.1 p.2
        | n :: rest' =>
          let p := keywordChain { st with op := 3, ifname := some n } t rest'
          processToks lineno fuel p.1 p.2
      else if strMatch "ssmgroup" t then
        let p := keywordChain { st with op := 1 } t rest
        processToks lineno fuel p.1 p.2
      else
        let r := processToks lineno fuel st rest
        (r.1, Event.warn lineno (WarnMsg.unknownCommand t) :: r.2)
    else
      let p := keywordChain st t rest
      processToks lineno fuel p.1 p.2

/-- The dispatch after the token loop: `op = 1` joins the group, `op = 2`
adds the route, `op = 3` adds or deletes the vif depending on `enable`. -/
def dispatchOp (env : List Iface) (lineno : Nat) (st : PState) : List Event :=
  if st.op = 1 then (join_mgroup lineno st.ifname st.source st.group).2
  else if st.op = 2 then (add_mroute env lineno st.ifname st.group st.source st.dest).2
  else if st.op = 3 then
    if st.enable then [Event.mroute_add_vif st.ifname st.threshold]
    else [Event.mroute_del_vif st.ifname]
  else []

/-- Processing of one configuration line: tokenize, run the token loop,
then dispatch on the recognised directive. -/
def processLine (env : List Iface) (do_vifs : Bool) (lineno : Nat) (line : String) :
    PState × List Event :=
  let toks := tokenize line
  let r := processToks lineno toks.length (initState do_vifs) toks
  (r.1, r.2 ++ dispatchOp env lineno r.1)

/-- The `fgets` loop of `conf_parse`: lines are processed in order with a
1-based line counter that also advances on blank and comment lines. -/
def parseLines (env : List Iface) (do_vifs : Bool) (lineno : Nat) : List String → List Event
  | [] => []
  | l :: rest => (processLine env do_vifs lineno l).2 ++ parseLines env do_vifs (lineno + 1) rest

/-- Outcome of `conf_parse`'s `fopen`/`malloc` preamble: either of them can
fail, otherwise the file's lines (as returned by `fgets`) are available. -/
inductive OpenOutcome where
  | openFail
  | mallocFail
  | ok (lines : List String)

/-- `conf_parse(file, do_vifs)`: returns 1 when `fopen` or the line-buffer
allocation fails, otherwise processes every line and returns 0. -/
def conf_parse (env : List Iface) (do_vifs : Bool) (o : OpenOutcome) : Int × List Event :=
  match o with
  | OpenOutcome.openFail => (1, [])
  | OpenOutcome.mallocFail => (1, [])
  | OpenOutcome.ok lines => (0, parseLines env do_vifs 1 lines)

/-- Outcome of the `access(file, R_OK)` check in `conf_read`. -/
inductive AccessResult where
  | enoent
  | err
  | ok

/-- `conf_read(file, do_vifs)`: an unreadable file is logged (NOTICE for
ENOENT, WARNING otherwise) and the function returns without parsing; an
unsuccessful `conf_parse` is logged as a WARNING; a successful parse runs
`script_exec(NULL)`. -/
def conf_read (env : List Iface) (do_vifs : Bool) (file : String) (acc : AccessResult)
    (o : OpenOutcome) : List Event :=
  match acc with
  | AccessResult.enoent =>
    [Event.smclogNotice (LogMsg.noFile file), Event.smclogNotice LogMsg.continuing]
  | AccessResult.err =>
    [Event.smclogWarn (LogMsg.accessError file), Event.smclogNotice LogMsg.continuing]
  | AccessResult.ok =>
    let r := conf_parse env do_vifs o
    if r.1 ≠ 0 then r.2 ++ [Event.smclogWarn (LogMsg.failedParsing file)]
    else r.2 ++ [Event.script_exec]

/-- Big-endian composition of four octets into the host-order address value
used by the embedding. -/
def ipv4Addr (a b c d : Nat) : Nat := ((a * 256 + b) * 256 + c) * 256 + d

/-- An outbound name resolves when `iface_find_by_name` finds it and its
vif is not -1 — the test of the outbound loop. -/
def resolvesVif (env : List Iface) (n : String) : Bool :=
  match iface_find_by_name env n with
  | some i => i.vif != -1
  | none => false

/-- The threshold written last into TTL slot `v` by the outbound loop over
`names` (the slot's final value, since later stores overwrite earlier
ones), or `none` when no resolving name has vif `v`. -/
def lastResolvedThr (env : List Iface) : List String → Int → Option Nat
  | [], _ => none
  | n :: rest, v =>
    match lastResolvedThr env rest v with
    | some t => some t
    | none =>
      match iface_find_by_name env n with
      | some i => if i.vif ≠ -1 ∧ i.vif = v then some i.threshold else none
      | none => none

/-- All events of a trace are line-`l` warnings. -/
def warnOnly (l : Nat) (evs : List Event) : Prop :=
  ∀ e ∈ evs, ∃ msg, e = Event.warn l msg

/-- A small interface table used to instantiate the theorems. -/
def demoEnv : List Iface :=
  [{ name := "eth0", vif := 0, threshold := 1 },
   { name := "eth1", vif := 1, threshold := 5 },
   { name := "eth2", vif := 2, threshold := 7 }]

theorem filterSplitLength {α : Type} (p : α → Bool) (l : List α) :
    (l.filter p).length + (l.filter (fun a => !(p a))).length = l.length := by
  induction l with
  | nil => simp
  | cons a l ih =>
    by_cases h : p a <;> simp [List.filter_cons, h] <;> omega

theorem outboundLoop_total (env : List Iface) (l : Nat) (inb : Int) (ifn : String) :
    ∀ (names : List String) (total : Int) (ttl : Int → Nat),
      (outboundLoop env l inb ifn names total ttl).1
        = total - ((names.filter (fun n => !(resolvesVif env n))).length : Int) := by
  intro names
  induction names with
  | nil => intro total ttl; simp [outboundLoop]
  | cons n rest ih =>
    intro total ttl
    rcases h : iface_find_by_name env n with _ | i
    · have hr : resolvesVif env n = false := by simp [resolvesVif, h]
      simp [outboundLoop, h, ih, hr, List.filter_cons]
      omega
    · by_cases hv : i.vif = -1
      · have hr : resolvesVif env n = false := by simp [resolvesVif, h, hv]
        simp [outboundLoop, h, hv, ih, hr, List.filter_cons]
        omega
      · have hr : resolvesVif env n = true := by simp [resolvesVif, h, hv]
        simp [outboundLoop, h, hv, ih, hr, List.filter_cons]

theorem outboundLoop_ttl (env : List Iface) (l : Nat) (inb : Int) (ifn : String) :
    ∀ (names : List String) (total : Int) (ttl : Int → Nat) (v : Int),
      (outboundLoop env l inb ifn names total ttl).2.1 v
        = match lastResolvedThr env names v with
          | some t => t
          | none => ttl v := by
  intro names
  induction names with
  | nil => intro total ttl v; simp [outboundLoop, lastResolvedThr]
  | cons n rest ih =>
    intro total ttl v
    rcases h : iface_find_by_name env n with _ | i
    · rw [show (outboundLoop env l inb ifn (n :: rest) total ttl).2.1
          = (outboundLoop env l inb ifn rest (total - 1) ttl).2.1 by simp [outboundLoop, h]]
      rw [ih]
      simp only [lastResolvedThr, h]
      rcases lastResolvedThr env rest v with _ | t <;> rfl
    · by_cases hv : i.vif = -1
      · rw [show (outboundLoop env l inb ifn (n :: rest) total ttl).2.1
            = (outboundLoop env l inb ifn rest (total - 1) ttl).2.1 by simp [outboundLoop, h, hv]]
        rw [ih]
        simp only [lastResolvedThr, h, hv]
        rcases lastResolvedThr env rest v with _ | t
        · rw [if_neg (fun hc => hc.1 rfl)]
        · rfl
      · rw [show (outboundLoop env l inb ifn (n :: rest) total ttl).2.1
            = (outboundLoop env l inb ifn rest total (Function.update ttl i.vif i.threshold)).2.1 by
              simp [outboundLoop, h, hv]]
        rw [ih]
        simp only [lastResolvedThr, h]
        rcases lastResolvedThr env rest v with _ | t
        · by_cases hvv : i.vif = v
          · rw [if_pos ⟨hv, hvv⟩]
            show Function.update ttl i.vif i.threshold v = i.threshold
            rw [← hvv, Function.update_same]
          · rw [if_neg (fun hc => hvv hc.2)]
            show Function.update ttl i.vif i.threshold v = ttl v
            exact Function.update_noteq (fun hh => hvv hh.symm) _ _
        · rfl

theorem outboundLoop_events (env : List Iface) (l : Nat) (inb : Int) (ifn : String) :
    ∀ (names : List String) (total : Int) (ttl : Int → Nat) (e : Event),
      e ∈ (outboundLoop env l inb ifn names total ttl).2.2 →
        (∃ n, e = Event.warn l (WarnMsg.invalidOutbound4 n)) ∨
        (∃ n, e = Event.warn l (WarnMsg.sameOutbound4 n ifn)) := by
  intro names
  induction names with
  | nil => intro total ttl e he; simp [outboundLoop] at he
  | cons n rest ih =>
    intro total ttl e he
    rcases h : iface_find_by_name env n with _ | i
    · simp only [outboundLoop, h] at he
      rcases List.mem_cons.mp he with h1 | h2
      · exact Or.inl ⟨n, h1⟩
      · exact ih _ _ _ h2
    · by_cases hv : i.vif = -1
      · simp only [outboundLoop, h, hv, if_pos, ite_true] at he
        rcases List.mem_cons.mp he with h1 | h2
        · exact Or.inl ⟨n, h1⟩
        · exact ih _ _ _ h2
      · simp only [outboundLoop, h, hv, if_neg, ite_false] at he
        rcases List.mem_append.mp he with h1 | h2
        · by_cases hs : i.vif = inb
          · simp [hs] at h1
            exact Or.inr ⟨n, h1⟩
          · simp [hs] at h1
        · exact ih _ _ _ h2

theorem outboundLoop_count (env : List Iface) (l : Nat) (inb : Int) (ifn : String) :
    ∀ (names : List String) (total : Int) (ttl : Int → Nat),
      (outboundLoop env l inb ifn names total ttl).2.2.countP isInvalidOutWarn
        = (names.filter (fun n => !(resolvesVif env n))).length := by
  intro names
  induction names with
  | nil => intro total ttl; simp [outboundLoop]
  | cons n rest ih =>
    intro total ttl
    rcases h : iface_find_by_name env n with _ | i
    · have hr : resolvesVif env n = false := by simp [resolvesVif, h]
      simp [outboundLoop, h, List.countP_cons, isInvalidOutWarn, ih, hr, List.filter_cons]
    · by_cases hv : i.vif = -1
      · have hr : resolvesVif env n = false := by simp [resolvesVif, h, hv]
        simp [outboundLoop, h, hv, List.countP_cons, isInvalidOutWarn, ih, hr, List.filter_cons]
      · have hr : resolvesVif env n = true := by simp [resolvesVif, h, hv]
        have step : (outboundLoop env l inb ifn (n :: rest) total ttl).2.2
            = (if i.vif = inb then [Event.warn l (WarnMsg.sameOutbound4 n ifn)] else [])
              ++ (outboundLoop env l inb ifn rest total (Function.update ttl i.vif i.threshold)).2.2 := by
          simp [outboundLoop, h, hv]
        rw [step]
        by_cases hs : i.vif = inb <;>
          simp [hs, List.countP_append, List.countP_cons, isInvalidOutWarn, ih, hr,
            List.filter_cons]

theorem outboundLoop_warnOnly (env : List Iface) (l : Nat) (inb : Int) (ifn : String)
    (names : List String) (total : Int) (ttl : Int → Nat) :
    warnOnly l (outboundLoop env l inb ifn names total ttl).2.2 := by
  intro e he
  rcases outboundLoop_events env l inb ifn names total ttl e he with ⟨n, h⟩ | ⟨n, h⟩ <;>
    exact ⟨_, h⟩

theorem join_mgroup4_cases (l : Nat) (ifn : String) (sa : Nat) (g : String) :
    (∃ msg, join_mgroup4 l ifn sa g = (1, [Event.warn l msg])) ∨
    (∃ ga, join_mgroup4 l ifn sa g = (0, [Event.mcgroup4_join ifn sa ga])) := by
  rcases hp : inet_pton4 g with _ | ga
  · refine Or.inl ⟨WarnMsg.invalidGroup4 g, ?_⟩
    simp [join_mgroup4, hp]
  · by_cases hm : IN_MULTICAST ga = true
    · refine Or.inr ⟨ga, ?_⟩
      simp [join_mgroup4, hp, hm]
    · refine Or.inl ⟨WarnMsg.invalidGroup4 g, ?_⟩
      simp [join_mgroup4, hp, hm]

theorem join_mgroup_cases (l : Nat) (i s g : Option String) :
    join_mgroup l i s g = (1, []) ∨
    (∃ msg, join_mgroup l i s g = (1, [Event.warn l msg])) ∨
    (join_mgroup l i s g = (0, [Event.warn l WarnMsg.ignoredIPv6])) ∨
    (∃ ifn sa ga, join_mgroup l i s g = (0, [Event.mcgroup4_join ifn sa ga])) := by
  rcases i with _ | ifn
  · rcases g with _ | g' <;> exact Or.inl rfl
  · rcases g with _ | g'
    · exact Or.inl rfl
    · by_cases hc : ':' ∈ g'.data
      · refine Or.inr (Or.inr (Or.inl ?_))
        simp [join_mgroup, hc]
      · rcases s with _ | s'
        · have hred : join_mgroup l (some ifn) none (some g') = join_mgroup4 l ifn 0 g' := by
            simp [join_mgroup, hc]
          rw [hred]
          rcases join_mgroup4_cases l ifn 0 g' with ⟨msg, hh⟩ | ⟨ga, hh⟩
          · exact Or.inr (Or.inl ⟨msg, hh⟩)
          · exact Or.inr (Or.inr (Or.inr ⟨ifn, 0, ga, hh⟩))
        · rcases hp : inet_pton4 s' with _ | sa
          · refine Or.inr (Or.inl ⟨WarnMsg.invalidGroupSource4 s', ?_⟩)
            simp [join_mgroup, hc, hp]
          · have hred : join_mgroup l (some ifn) (some s') (some g')
                = join_mgroup4 l ifn sa g' := by
              simp [join_mgroup, hc, hp]
            rw [hred]
            rcases join_mgroup4_cases l ifn sa g' with ⟨msg, hh⟩ | ⟨ga, hh⟩
            · exact Or.inr (Or.inl ⟨msg, hh⟩)
            · exact Or.inr (Or.inr (Or.inr ⟨ifn, sa, ga, hh⟩))

theorem srcParse_error (l : Nat) (src : Option String) (evs : List Event)
    (h : srcParse l src = Except.error evs) : ∃ msg, evs = [Event.warn l msg] := by
  rcases src with _ | s
  · simp [srcParse] at h
  · rcases hp : inet_pton4 s with _ | a
    · simp [srcParse, hp] at h
      exact ⟨_, h.symm⟩
    · simp [srcParse, hp] at h

theorem mroute4_group_error (l : Nat) (inb : Int) (sa : Nat) (gs : String) (len : Int)
    (evs : List Event) (h : mroute4_group l inb sa gs len = Except.error evs) :
    ∃ msg, evs = [Event.warn l msg] := by
  rcases hp : inet_pton4 gs with _ | ga
  · simp [mroute4_group, hp] at h
    exact ⟨_, h.symm⟩
  · by_cases hm : IN_MULTICAST ga = true
    · simp [mroute4_group, hp, hm] at h
    · simp [mroute4_group, hp, hm] at h
      exact ⟨_, h.symm⟩

theorem mroute4_group_ok_ttl (l : Nat) (inb : Int) (sa : Nat) (gs : String) (len : Int)
    (m : MRoute4) (h : mroute4_group l inb sa gs len = Except.ok m) : ∀ v, m.ttl v = 0 := by
  rcases hp : inet_pton4 gs with _ | ga
  · simp [mroute4_group, hp] at h
  · by_cases hm : IN_MULTICAST ga = true
    · simp [mroute4_group, hp, hm] at h
      intro v
      rw [← h]
    · simp [mroute4_group, hp, hm] at h

theorem mroute4_head_error (env : List Iface) (l : Nat) (ifn g : String) (src : Option String)
    (evs : List Event) (h : mroute4_head env l ifn g src = Except.error evs) :
    ∃ msg, evs = [Event.warn l msg] := by
  by_cases hin : iface_get_vif_by_name env ifn < 0
  · simp [mroute4_head, hin] at h
    exact ⟨_, h.symm⟩
  · cases hs : srcParse l src with
    | error evs' =>
      simp [mroute4_head, hin, hs] at h
      exact h.symm ▸ srcParse_error l src evs' hs
    | ok sa =>
      rcases hsp : splitSlash g with ⟨gs, ls⟩
      rcases ls with _ | ls'
      · simp [mroute4_head, hin, hs, hsp] at h
        exact mroute4_group_error _ _ _ _ _ _ h
      · by_cases hz : sa ≠ 0
        · simp [mroute4_head, hin, hs, hsp, hz] at h
          exact ⟨_, h.symm⟩
        · by_cases hl : atoi ls' < 0 ∨ 32 < atoi ls'
          · simp [mroute4_head, hin, hs, hsp, hz, hl] at h
            exact ⟨_, h.symm⟩
          · simp [mroute4_head, hin, hs, hsp, hz, hl] at h
            exact mroute4_group_error _ _ _ _ _ _ h

theorem mroute4_head_ok_ttl (env : List Iface) (l : Nat) (ifn g : String) (src : Option String)
    (m : MRoute4) (h : mroute4_head env l ifn g src = Except.ok m) : ∀ v, m.ttl v = 0 := by
  by_cases hin : iface_get_vif_by_name env ifn < 0
  · simp [mroute4_head, hin] at h
  · cases hs : srcParse l src with
    | error evs' => simp [mroute4_head, hin, hs] at h
    | ok sa =>
      rcases hsp : splitSlash g with ⟨gs, ls⟩
      rcases ls with _ | ls'
      · simp [mroute4_head, hin, hs, hsp] at h
        exact mroute4_group_ok_ttl _ _ _ _ _ _ h
      · by_cases hz : sa ≠ 0
        · simp [mroute4_head, hin, hs, hsp, hz] at h
        · by_cases hl : atoi ls' < 0 ∨ 32 < atoi ls'
          · simp [mroute4_head, hin, hs, hsp, hz, hl] at h
          · simp [mroute4_head, hin, hs, hsp, hz, hl] at h
            exact mroute4_group_ok_ttl _ _ _ _ _ _ h

theorem add_mroute_tail_cases (env : List Iface) (l : Nat) (ifn : String) (m : MRoute4)
    (out : List String) :
    (∃ evs, add_mroute_tail env l ifn m out = (1, evs) ∧ warnOnly l evs) ∨
    (∃ evs m', add_mroute_tail env l ifn m out = (0, evs ++ [Event.mroute4_add m']) ∧
      warnOnly l evs) := by
  by_cases hr : (outboundLoop env l m.inbound ifn out (out.length : Int) m.ttl).1 = 0
  · refine Or.inl ⟨(outboundLoop env l m.inbound ifn out (out.length : Int) m.ttl).2.2
        ++ [Event.warn l WarnMsg.noValidOutbound4], ?_, ?_⟩
    · simp [add_mroute_tail, hr]
    · intro e he
      rcases List.mem_append.mp he with h1 | h2
      · exact outboundLoop_warnOnly env l m.inbound ifn out _ m.ttl e h1
      · simp at h2
        exact ⟨_, h2⟩
  · refine Or.inr ⟨(outboundLoop env l m.inbound ifn out (out.length : Int) m.ttl).2.2,
      { m with ttl := (outboundLoop env l m.inbound ifn out (out.length : Int) m.ttl).2.1 },
      ?_, outboundLoop_warnOnly env l m.inbound ifn out _ m.ttl⟩
    simp [add_mroute_tail, hr]

theorem add_mroute_cases (env : List Iface) (l : Nat) (i g s : Option String)
    (out : List String) :
    add_mroute env l i g s out = (1, []) ∨
    (∃ evs, add_mroute env l i g s out = (1, evs) ∧ warnOnly l evs) ∨
    (add_mroute env l i g s out = (0, [Event.warn l WarnMsg.ignoredIPv6])) ∨
    (∃ evs m, add_mroute env l i g s out = (0, evs ++ [Event.mroute4_add m]) ∧
      warnOnly l evs) := by
  rcases i with _ | ifn
  · rcases g with _ | g' <;> exact Or.inl rfl
  · rcases g with _ | g'
    · exact Or.inl rfl
    · by_cases ho : out = []
      · refine Or.inl ?_
        simp [add_mroute, ho]
      · by_cases hc : ':' ∈ g'.data
        · refine Or.inr (Or.inr (Or.inl ?_))
          simp [add_mroute, ho, hc]
        · cases hh : mroute4_head env l ifn g' s with
          | error evs =>
            have hred : add_mroute env l (some ifn) (some g') s out = (1, evs) := by
              simp [add_mroute, ho, hc, hh]
            rcases mroute4_head_error env l ifn g' s evs hh with ⟨msg, hm⟩
            refine Or.inr (Or.inl ⟨evs, hred, ?_⟩)
            intro e he
            rw [hm] at he
            simp at he
            exact ⟨_, he⟩
          | ok m =>
            have hred : add_mroute env l (some ifn) (some g') s out
                = add_mroute_tail env l ifn m out := by
              simp [add_mroute, ho, hc, hh]
            rw [hred]
            rcases add_mroute_tail_cases env l ifn m out with ⟨evs, ht, hw⟩ | ⟨evs, m', ht, hw⟩
            · exact Or.inr (Or.inl ⟨evs, ht, hw⟩)
            · exact Or.inr (Or.inr (Or.inr ⟨evs, m', ht, hw⟩))

theorem processToks_events (l : Nat) :
    ∀ (fuel : Nat) (st : PState) (toks : List String) (e : Event),
      e ∈ (processToks l fuel st toks).2 →
        ∃ t, e = Event.warn l (WarnMsg.unknownCommand t) := by
  intro fuel
  induction fuel with
  | zero => intro st toks e he; simp [processToks] at he
  | succ n ih =>
    intro st toks e he
    rcases toks with _ | ⟨t, rest⟩
    · simp [processToks] at he
    · simp only [processToks] at he
      by_cases h1 : strMatch "#" t = true
      · rw [if_pos h1] at he
        simp at he
      · rw [if_neg h1] at he
        by_cases h2 : st.op = 0
        · rw [if_pos h2] at he
          by_cases h3 : strMatch "mgroup" t = true
          · rw [if_pos h3] at he
            exact ih _ _ _ he
          · rw [if_neg h3] at he
            by_cases h4 : strMatch "mroute" t = true
            · rw [if_pos h4] at he
              exact ih _ _ _ he
            · rw [if_neg h4] at he
              by_cases h5 : strMatch "phyint" t = true
              · rw [if_pos h5] at he
                rcases rest with _ | ⟨nn, rest'⟩
                · exact ih _ _ _ he
                · exact ih _ _ _ he
              · rw [if_neg h5] at he
                by_cases h6 : strMatch "ssmgroup" t = true
                · rw [if_pos h6] at he
                  exact ih _ _ _ he
                · rw [if_neg h6] at he
                  rcases List.mem_cons.mp he with h | h
                  · exact ⟨t, h⟩
                  · exact ih _ _ _ h
        · rw [if_neg h2] at he
          exact ih _ _ _ he

theorem dispatchOp_events (env : List Iface) (l : Nat) (st : PState) :
    ∀ e ∈ dispatchOp env l st, isIPv6Backend e = false ∧ isScript e = false := by
  intro e he
  unfold dispatchOp at he
  by_cases h1 : st.op = 1
  · rw [if_pos h1] at he
    rcases join_mgroup_cases l st.ifname st.source st.group with hc | ⟨msg, hc⟩ | hc |
        ⟨ifn, sa, ga, hc⟩ <;> rw [hc] at he
    · simp at he
    · simp at he
      subst he
      exact ⟨rfl, rfl⟩
    · simp at he
      subst he
      exact ⟨rfl, rfl⟩
    · simp at he
      subst he
      exact ⟨rfl, rfl⟩
  · rw [if_neg h1] at he
    by_cases h2 : st.op = 2
    · rw [if_pos h2] at he
      rcases add_mroute_cases env l st.ifname st.group st.source st.dest with hc |
          ⟨evs, hc, hw⟩ | hc | ⟨evs, m, hc, hw⟩ <;> rw [hc] at he
      · simp at he
      · rcases hw e he with ⟨msg, hm⟩
        subst hm
        exact ⟨rfl, rfl⟩
      · simp at he
        subst he
        exact ⟨rfl, rfl⟩
      · rcases List.mem_append.mp he with h | h
        · rcases hw e h with ⟨msg, hm⟩
          subst hm
          exact ⟨rfl, rfl⟩
        · simp at h
          subst h
          exact ⟨rfl, rfl⟩
    · rw [if_neg h2] at he
      by_cases h3 : st.op = 3
      · rw [if_pos h3] at he
        by_cases h4 : st.enable = true
        · rw [if_pos h4] at he
          simp at he
          subst he
          exact ⟨rfl, rfl⟩
        · rw [if_neg h4] at he
          simp at he
          subst he
          exact ⟨rfl, rfl⟩
      · rw [if_neg h3] at he
        simp at he

theorem processLine_events (env : List Iface) (dv : Bool) (l : Nat) (line : String) :
    ∀ e ∈ (processLine env dv l line).2, isIPv6Backend e = false ∧ isScript e = false := by
  intro e he
  unfold processLine at he
  rcases List.mem_append.mp he with h | h
  · rcases processToks_events l _ _ _ e h with ⟨t, ht⟩
    subst ht
    exact ⟨rfl, rfl⟩
  · exact dispatchOp_events env l _ e h

theorem parseLines_events (env : List Iface) (dv : Bool) :
    ∀ (lines : List String) (l : Nat) (e : Event),
      e ∈ parseLines env dv l lines → isIPv6Backend e = false ∧ isScript e = false := by
  intro lines
  induction lines with
  | nil => intro l e he; simp [parseLines] at he
  | cons ln rest ih =>
    intro l e he
    simp only [parseLines] at he
    rcases List.mem_append.mp he with h | h
    · exact processLine_events env dv l ln e h
    · exact ih _ e h

theorem conf_parse_events (env : List Iface) (dv : Bool) (o : OpenOutcome) :
    ∀ e ∈ (conf_parse env dv o).2, isIPv6Backend e = false ∧ isScript e = false := by
  intro e he
  rcases o with _ | _ | lines
  · simp [conf_parse] at he
  · simp [conf_parse] at he
  · exact parseLines_events env dv lines 1 e he

theorem warnOnly_filter_isBackend {l : Nat} {evs : List Event} (h : warnOnly l evs) :
    evs.filter isBackend = [] := by
  refine List.filter_eq_nil_iff.mpr ?_
  intro e he
  rcases h e he with ⟨msg, hm⟩
  subst hm
  simp [isBackend]

theorem mroute4_group_error_msg (l : Nat) (inb : Int) (sa : Nat) (gs : String) (len : Int)
    (evs : List Event) (h : mroute4_group l inb sa gs len = Except.error evs) :
    evs = [Event.warn l (WarnMsg.invalidGroup4 gs)] := by
  rcases hp : inet_pton4 gs with _ | ga
  · simp [mroute4_group, hp] at h
    exact h.symm
  · by_cases hm : IN_MULTICAST ga = true
    · simp [mroute4_group, hp, hm] at h
    · simp [mroute4_group, hp, hm] at h
      exact h.symm

theorem lastResolvedThr_none (env : List Iface) (v : Int) :
    ∀ names : List String,
      (∀ n ∈ names, ∀ i, iface_find_by_name env n = some i → i.vif ≠ -1 → i.vif ≠ v) →
      lastResolvedThr env names v = none := by
  intro names
  induction names with
  | nil => intro _; rfl
  | cons n rest ih =>
    intro h
    have hr : lastResolvedThr env rest v = none :=
      ih (fun n' hn' i hi hv => h n' (List.mem_cons_of_mem n hn') i hi hv)
    simp only [lastResolvedThr, hr]
    rcases hf : iface_find_by_name env n with _ | i
    · rfl
    · show (if i.vif ≠ -1 ∧ i.vif = v then some i.threshold else none) = none
      rw [if_neg]
      rintro ⟨hv, hvv⟩
      exact h n (List.mem_cons_self n rest) i hf hv hvv

theorem matchChars_from_not_hash (ds : List Char)
    (h : matchChars ['f', 'r', 'o', 'm'] ds = true) : matchChars ['#'] ds = false := by
  cases ds with
  | nil => exact absurd h (by decide)
  | cons c cs =>
    have h' : (('f' == c) && matchChars ['r', 'o', 'm'] cs) = true := h
    have hc : c = 'f' := (eq_of_beq ((Bool.and_eq_true _ _).mp h').1).symm
    subst hc
    show (('#' == 'f') && matchChars [] cs) = false
    simp [matchChars]

theorem strMatch_from_not_comment (t : String) (h : strMatch "from" t = true) :
    strMatch "#" t = false :=
  matchChars_from_not_hash t.data h

/-- Claim C3: the `ttl-threshold` range check is written
`num >= 1 || num <= 255`, which every integer satisfies, so the
out-of-range value 300 is not ignored: it replaces the default and the
resulting `vif_add` call carries threshold 300 instead of the default 1
that the claim requires. -/
theorem ttl_threshold_out_of_range_applied :
    (processLine [] true 1 "phyint eth0 enable ttl-threshold 300\n").2
      = [Event.mroute_add_vif (some "eth0") 300] := rfl

set_option maxRecDepth 40000 in
/-- Claim C5: the `to` loop `while ((dest[num] = pop_token(&line))) num++`
has no bound on `num`, while `dest` has 32 slots.  The line below is 168
bytes, well inside the 512-byte line buffer, carries 33 outbound names,
and drives the loop through stores at indexes 0..33 — the 33rd name is
stored at index 32, past the end of the array, so the claimed unreachable
error branch is in fact reached (an out-of-bounds write in the C code). -/
theorem to_keyword_dest_overflow :
    (processLine [] true 1
      "mroute from eth0 group 225.0.0.1 to a01 a02 a03 a04 a05 a06 a07 a08 a09 a10 a11 a12 a13 a14 a15 a16 a17 a18 a19 a20 a21 a22 a23 a24 a25 a26 a27 a28 a29 a30 a31 a32 a33\n").1.destOOB
      = true ∧
    (processLine [] true 1
      "mroute from eth0 group 225.0.0.1 to a01 a02 a03 a04 a05 a06 a07 a08 a09 a10 a11 a12 a13 a14 a15 a16 a17 a18 a19 a20 a21 a22 a23 a24 a25 a26 a27 a28 a29 a30 a31 a32 a33\n").1.dest.length
      = 33 ∧
    ("mroute from eth0 group 225.0.0.1 to a01 a02 a03 a04 a05 a06 a07 a08 a09 a10 a11 a12 a13 a14 a15 a16 a17 a18 a19 a20 a21 a22 a23 a24 a25 a26 a27 a28 a29 a30 a31 a32 a33\n").length ≤ 511 := by
  refine ⟨rfl, rfl, by decide⟩

/-- Claim C8, counterexample: an `mgroup` directive with its required
`group` operand missing is skipped by the silent `errno = EINVAL`
return at the top of `join_mgroup`, so the line produces no events at
all — in particular no line-number-prefixed WARNING, contradicting the
claim that a warning is emitted. -/
theorem missing_operand_no_warning :
    (processLine [] true 3 "mgroup from eth0\n").2 = [] := rfl

/-- Claim C8, amended: a directive missing a required operand (interface
or group for `mgroup`, interface, group or outbound list for `mroute`) is
skipped with no backend call, but silently — `join_mgroup` and
`add_mroute` return 1 with `errno = EINVAL` before emitting any warning;
the line-number-prefixed warnings are reserved for operands that are
present but invalid. -/
theorem missing_operand_silent_skip :
    (∀ (l : Nat) (i s g : Option String), i = none ∨ g = none →
      join_mgroup l i s g = (1, [])) ∧
    (∀ (env : List Iface) (l : Nat) (i g s : Option String) (out : List String),
      i = none ∨ g = none ∨ out = [] → add_mroute env l i g s out = (1, [])) ∧
    (∀ (env : List Iface) (dv : Bool) (l : Nat),
      (processLine env dv l "mgroup from eth0\n").2 = []) := by
  refine ⟨?_, ?_, ?_⟩
  · intro l i s g h
    rcases h with h | h
    · subst h
      rfl
    · subst h
      rcases i with _ | ifn <;> rfl
  · intro env l i g s out h
    rcases h with h | h | h
    · subst h
      rfl
    · subst h
      rcases i with _ | ifn <;> rfl
    · subst h
      rcases i with _ | ifn
      · rfl
      · rcases g with _ | g' <;> rfl
  · intro env dv l
    rfl

theorem missing_operand_silent_skip_witness :
    join_mgroup 2 none none (some "225.1.2.3") = (1, []) :=
  missing_operand_silent_skip.1 2 none none (some "225.1.2.3") (Or.inl rfl)

/-- Claim C4, counterexample: after the unknown first token `foo` is
warned about and skipped with `continue`, `op` is still 0, so the next
token is again matched against the verbs — here `mgroup` is recognised,
its operands are filled, and a backend `mcgroup4_join` call results from
the very line the claim says can produce no directive and no backend
call. -/
theorem unknown_first_token_backend_call :
    (processLine [] true 1 "foo mgroup from lo group 225.1.2.3\n").2
      = [Event.warn 1 (WarnMsg.unknownCommand "foo"),
         Event.mcgroup4_join "lo" 0 (ipv4Addr 225 1 2 3)] := rfl

/-- Claim C4, amended: a token that is not a comment and matches no verb
while no directive has been recognised yet emits its own
`Unknown command <token>, skipping.` warning and is skipped; the
remaining tokens are then processed exactly as if the line had started
with them, so each later non-verb token warns again, and a later verb
token starts a directive normally (which may set operands and produce a
backend call, as the counterexample shows). -/
theorem unknown_token_warn_and_rescan (l fuel : Nat) (st : PState) (t : String)
    (rest : List String) (hop : st.op = 0) (hc : strMatch "#" t = false)
    (h1 : strMatch "mgroup" t = false) (h2 : strMatch "mroute" t = false)
    (h3 : strMatch "phyint" t = false) (h4 : strMatch "ssmgroup" t = false) :
    processToks l (fuel + 1) st (t :: rest)
      = ((processToks l fuel st rest).1,
         Event.warn l (WarnMsg.unknownCommand t) :: (processToks l fuel st rest).2) := by
  simp [processToks, hop, hc, h1, h2, h3, h4]

theorem unknown_token_warn_and_rescan_witness :
    processToks 1 1 (initState true) ["foo"]
      = ((processToks 1 0 (initState true) []).1,
         Event.warn 1 (WarnMsg.unknownCommand "foo") :: (processToks 1 0 (initState true) []).2) :=
  unknown_token_warn_and_rescan 1 0 (initState true) "foo" [] rfl rfl rfl rfl rfl rfl

/-- Claim C2: whenever an operand of a directive is rejected (`join_mgroup`
or `add_mroute` returns 1 — which, with backend calls modelled as
succeeding, happens exactly on the reject paths), the directive's event
trace contains no backend mutation; and the concrete S7 line
`mgroup from eth0 group 10.0.0.1` produces no backend call, only the
"Invalid IPv4 multicast group" warning for the non-multicast group. -/
theorem rejected_operand_no_backend :
    (∀ (l : Nat) (i s g : Option String), (join_mgroup l i s g).1 = 1 →
      (join_mgroup l i s g).2.filter isBackend = []) ∧
    (∀ (env : List Iface) (l : Nat) (i g s : Option String) (out : List String),
      (add_mroute env l i g s out).1 = 1 →
      (add_mroute env l i g s out).2.filter isBackend = []) ∧
    (∀ (env : List Iface) (dv : Bool),
      (processLine env dv 7 "mgroup from eth0 group 10.0.0.1\n").2.filter isBackend = [] ∧
      Event.warn 7 (WarnMsg.invalidGroup4 "10.0.0.1") ∈
        (processLine env dv 7 "mgroup from eth0 group 10.0.0.1\n").2) := by
  refine ⟨?_, ?_, ?_⟩
  · intro l i s g hr
    rcases join_mgroup_cases l i s g with hc | ⟨msg, hc⟩ | hc | ⟨ifn, sa, ga, hc⟩
    · rw [hc]
      rfl
    · rw [hc]
      rfl
    · rw [hc] at hr
      simp at hr
    · rw [hc] at hr
      simp at hr
  · intro env l i g s out hr
    rcases add_mroute_cases env l i g s out with hc | ⟨evs, hc, hw⟩ | hc | ⟨evs, m, hc, hw⟩
    · rw [hc]
      rfl
    · rw [hc]
      exact warnOnly_filter_isBackend hw
    · rw [hc] at hr
      simp at hr
    · rw [hc] at hr
      simp at hr
  · intro env dv
    refine ⟨rfl, ?_⟩
    rw [show (processLine env dv 7 "mgroup from eth0 group 10.0.0.1\n").2
        = [Event.warn 7 (WarnMsg.invalidGroup4 "10.0.0.1")] from rfl]
    exact List.mem_singleton.mpr rfl

theorem rejected_operand_no_backend_witness :
    (join_mgroup 7 (some "eth0") none (some "10.0.0.1")).2.filter isBackend = [] :=
  rejected_operand_no_backend.1 7 (some "eth0") none (some "10.0.0.1") rfl

/-- Claim C7: in the build without IPv6 multicast support modelled here,
no trace of `conf_parse` ever contains an IPv6 backend call
(`mcgroup6_join` / `mroute6_add`); a whole-file pass always returns 0;
and each directive whose group contains ':' — the family test of the
source — logs only "Ignored, IPv6 disabled." and returns success. -/
theorem ipv6_disabled_gating :
    (∀ (env : List Iface) (dv : Bool) (o : OpenOutcome),
      (conf_parse env dv o).2.filter isIPv6Backend = []) ∧
    (∀ (env : List Iface) (dv : Bool) (lines : List String),
      (conf_parse env dv (OpenOutcome.ok lines)).1 = 0) ∧
    (∀ (l : Nat) (ifn : String) (src : Option String) (g : String), ':' ∈ g.data →
      join_mgroup l (some ifn) src (some g) = (0, [Event.warn l WarnMsg.ignoredIPv6])) ∧
    (∀ (env : List Iface) (l : Nat) (ifn g : String) (src : Option String)
      (out : List String), ':' ∈ g.data → out ≠ [] →
      add_mroute env l (some ifn) (some g) src out
        = (0, [Event.warn l WarnMsg.ignoredIPv6])) := by
  refine ⟨?_, ?_, ?_, ?_⟩
  · intro env dv o
    refine List.filter_eq_nil_iff.mpr ?_
    intro e he
    simp [(conf_parse_events env dv o e he).1]
  · intro env dv lines
    rfl
  · intro l ifn src g hc
    simp [join_mgroup, hc]
  · intro env l ifn g src out hc hout
    simp [add_mroute, hout, hc]

theorem ipv6_disabled_gating_witness :
    join_mgroup 1 (some "eth0") none (some "ff02::1")
      = (0, [Event.warn 1 WarnMsg.ignoredIPv6]) :=
  ipv6_disabled_gating.2.2.1 1 "eth0" none "ff02::1" (by decide)

/-- Claim C10: the post-apply hook `script_exec` runs exactly once when the
readability check passes and `conf_parse` succeeds (which, once `fopen` and
the line-buffer allocation succeed, it always does), and never otherwise;
an absent file yields only the NOTICE pair, any other access error only
the WARNING plus NOTICE, and an `fopen`/`malloc` failure only the parse
events plus the "Failed parsing" WARNING. -/
theorem script_exec_gating :
    ∀ (env : List Iface) (dv : Bool) (file : String) (acc : AccessResult) (o : OpenOutcome),
      ((conf_read env dv file acc o).countP isScript
        = match acc, o with
          | AccessResult.ok, OpenOutcome.ok _ => 1
          | _, _ => 0) ∧
      (acc = AccessResult.enoent → conf_read env dv file acc o
        = [Event.smclogNotice (LogMsg.noFile file), Event.smclogNotice LogMsg.continuing]) ∧
      (acc = AccessResult.err → conf_read env dv file acc o
        = [Event.smclogWarn (LogMsg.accessError file), Event.smclogNotice LogMsg.continuing]) := by
  intro env dv file acc o
  rcases acc with _ | _ | _
  · exact ⟨rfl, fun _ => rfl, fun h => by simp at h⟩
  · exact ⟨rfl, fun h => by simp at h, fun _ => rfl⟩
  · refine ⟨?_, fun h => by simp at h, fun h => by simp at h⟩
    rcases o with _ | _ | lines
    · rfl
    · rfl
    · have h0 : (parseLines env dv 1 lines).countP isScript = 0 := by
        refine List.countP_eq_zero.mpr ?_
        intro e he
        simp [(parseLines_events env dv lines 1 e he).2]
      have hred : conf_read env dv file AccessResult.ok (OpenOutcome.ok lines)
          = parseLines env dv 1 lines ++ [Event.script_exec] := by
        simp [conf_read, conf_parse]
      show (conf_read env dv file AccessResult.ok (OpenOutcome.ok lines)).countP isScript = 1
      rw [hred, List.countP_append, h0]
      rfl

theorem script_exec_gating_witness :
    (conf_read [] true "smcroute.conf" AccessResult.ok (OpenOutcome.ok [])).countP isScript
      = 1 ∧
    (conf_read [] true "smcroute.conf" AccessResult.enoent (OpenOutcome.ok [])).countP isScript
      = 0 ∧
    conf_read [] true "smcroute.conf" AccessResult.enoent (OpenOutcome.ok [])
      = [Event.smclogNotice (LogMsg.noFile "smcroute.conf"),
         Event.smclogNotice LogMsg.continuing] :=
  ⟨(script_exec_gating [] true "smcroute.conf" AccessResult.ok (OpenOutcome.ok [])).1,
   (script_exec_gating [] true "smcroute.conf" AccessResult.enoent (OpenOutcome.ok [])).1,
   (script_exec_gating [] true "smcroute.conf" AccessResult.enoent (OpenOutcome.ok [])).2.1 rfl⟩

/-- Claim C9: once a directive has been recognised (`op ≠ 0`), the operand
keyword chain is applied independently of the directive kind: a token with
`from` as a leading segment pops the next token into the interface slot on
any directive (so `from NAME` on a phyint line replaces the vif name), and
`enable` / `ttl-threshold` tokens on non-phyint lines are consumed by their
keyword branches without any warning or rejection; the two concrete lines
show the resulting backend calls. -/
theorem keyword_chain_directive_independent :
    (∀ (l fuel : Nat) (st : PState) (t n : String) (rest : List String),
      st.op ≠ 0 → strMatch "from" t = true →
      processToks l (fuel + 1) st (t :: n :: rest)
        = processToks l fuel { st with ifname := some n } rest) ∧
    (∀ (l fuel : Nat) (st : PState) (rest : List String),
      st.op ≠ 0 →
      processToks l (fuel + 1) st ("enable" :: rest)
        = processToks l fuel { st with enable := true } rest) ∧
    (∀ (l fuel : Nat) (st : PState) (n : String) (rest : List String),
      st.op ≠ 0 →
      processToks l (fuel + 1) st ("ttl-threshold" :: n :: rest)
        = processToks l fuel
            { st with threshold := if 1 ≤ atoi n ∨ atoi n ≤ 255 then atoi n else st.threshold }
            rest) ∧
    (∀ env : List Iface,
      (processLine env true 1 "phyint eth0 from eth1\n").2
        = [Event.mroute_add_vif (some "eth1") 1]) ∧
    (∀ (env : List Iface) (dv : Bool),
      (processLine env dv 1 "mgroup from lo enable group 225.1.2.3\n").2
        = [Event.mcgroup4_join "lo" 0 (ipv4Addr 225 1 2 3)]) := by
  refine ⟨?_, ?_, ?_, fun env => rfl, fun env dv => rfl⟩
  · intro l fuel st t n rest hop hf
    have hc := strMatch_from_not_comment t hf
    simp [processToks, hop, hc, keywordChain, hf]
  · intro l fuel st rest hop
    have e1 : strMatch "#" "enable" = false := by decide
    have e2 : strMatch "from" "enable" = false := by decide
    have e3 : strMatch "source" "enable" = false := by decide
    have e4 : strMatch "group" "enable" = false := by decide
    have e5 : strMatch "to" "enable" = false := by decide
    have e6 : strMatch "enable" "enable" = true := by decide
    simp [processToks, hop, keywordChain, e1, e2, e3, e4, e5, e6]
  · intro l fuel st n rest hop
    have e1 : strMatch "#" "ttl-threshold" = false := by decide
    have e2 : strMatch "from" "ttl-threshold" = false := by decide
    have e3 : strMatch "source" "ttl-threshold" = false := by decide
    have e4 : strMatch "group" "ttl-threshold" = false := by decide
    have e5 : strMatch "to" "ttl-threshold" = false := by decide
    have e6 : strMatch "enable" "ttl-threshold" = false := by decide
    have e7 : strMatch "disable" "ttl-threshold" = false := by decide
    have e8 : strMatch "ttl-threshold" "ttl-threshold" = true := by decide
    simp [processToks, hop, keywordChain, e1, e2, e3, e4, e5, e6, e7, e8]

theorem keyword_chain_directive_independent_witness :
    processToks 9 1
      { op := 3, ifname := some "eth0", source := none, group := none, dest := [],
        destOOB := false, enable := true, threshold := 1 } ["from", "eth1"]
      = processToks 9 0
          { op := 3, ifname := some "eth1", source := none, group := none, dest := [],
            destOOB := false, enable := true, threshold := 1 } [] :=
  keyword_chain_directive_independent.1 9 0
    { op := 3, ifname := some "eth0", source := none, group := none, dest := [],
      destOOB := false, enable := true, threshold := 1 } "from" "eth1" []
    (by decide) (by decide)

theorem mroute4_head_wildcard_no_ssm (env : List Iface) (l : Nat) (ifn g : String)
    (src : Option String) (hsa : srcParse l src = Except.ok 0) :
    ∀ evs, mroute4_head env l ifn g src = Except.error evs →
      Event.warn l WarnMsg.ssmWithLen ∉ evs := by
  intro evs h
  by_cases hin : iface_get_vif_by_name env ifn < 0
  · simp [mroute4_head, hin] at h
    rw [← h]
    simp
  · rcases hsp : splitSlash g with ⟨gs, ls⟩
    rcases ls with _ | ls'
    · simp [mroute4_head, hin, hsa, hsp] at h
      rw [mroute4_group_error_msg _ _ _ _ _ _ h]
      simp
    · by_cases hl : atoi ls' < 0 ∨ 32 < atoi ls'
      · simp [mroute4_head, hin, hsa, hsp, hl] at h
        rw [← h]
        simp
      · simp [mroute4_head, hin, hsa, hsp, hl] at h
        rw [mroute4_group_error_msg _ _ _ _ _ _ h]
        simp

theorem add_mroute_tail_no_ssm (env : List Iface) (l : Nat) (ifn : String) (m : MRoute4)
    (out : List String) :
    Event.warn l WarnMsg.ssmWithLen ∉ (add_mroute_tail env l ifn m out).2 := by
  intro hmem
  simp only [add_mroute_tail] at hmem
  by_cases hr : (outboundLoop env l m.inbound ifn out (out.length : Int) m.ttl).1 = 0
  · rw [if_pos hr] at hmem
    rcases List.mem_append.mp hmem with h | h
    · rcases outboundLoop_events env l m.inbound ifn out _ m.ttl _ h with ⟨n, he⟩ | ⟨n, he⟩ <;>
        simp at he
    · simp at h
  · rw [if_neg hr] at hmem
    rcases List.mem_append.mp hmem with h | h
    · rcases outboundLoop_events env l m.inbound ifn out _ m.ttl _ h with ⟨n, he⟩ | ⟨n, he⟩ <;>
        simp at he
    · simp at h

theorem add_mroute_wildcard_no_ssm (env : List Iface) (l : Nat) (ifn g : String)
    (src : Option String) (out : List String) (hsa : srcParse l src = Except.ok 0) :
    Event.warn l WarnMsg.ssmWithLen ∉ (add_mroute env l (some ifn) (some g) src out).2 := by
  by_cases ho : out = []
  · simp [add_mroute, ho]
  · by_cases hc : ':' ∈ g.data
    · simp [add_mroute, ho, hc]
    · cases hh : mroute4_head env l ifn g src with
      | error evs =>
        have hred : add_mroute env l (some ifn) (some g) src out = (1, evs) := by
          simp [add_mroute, ho, hc, hh]
        rw [hred]
        exact mroute4_head_wildcard_no_ssm env l ifn g src hsa evs hh
      | ok m =>
        have hred : add_mroute env l (some ifn) (some g) src out
            = add_mroute_tail env l ifn m out := by
          simp [add_mroute, ho, hc, hh]
        rw [hred]
        exact add_mroute_tail_no_ssm env l ifn m out

/-- Claim C6: an IPv4 mroute whose group carries a `/LEN` suffix and whose
parsed source is not the wildcard is rejected with the
"GROUP/LEN not yet supported for source specific multicast." warning and
no `mroute4_add`; with no source at all, or with a source that parses to
`INADDR_ANY` (0), that warning can never appear in the directive's trace,
whatever the group or outbound list. -/
theorem ssm_with_len_rejected :
    (∀ (env : List Iface) (l : Nat) (ifn g s : String) (out : List String) (sa : Nat),
      ¬ iface_get_vif_by_name env ifn < 0 → inet_pton4 s = some sa → sa ≠ 0 →
      ':' ∉ g.data → (splitSlash g).2.isSome = true → out ≠ [] →
      add_mroute env l (some ifn) (some g) (some s) out
        = (1, [Event.warn l WarnMsg.ssmWithLen])) ∧
    (∀ (env : List Iface) (l : Nat) (ifn g : String) (out : List String),
      Event.warn l WarnMsg.ssmWithLen ∉ (add_mroute env l (some ifn) (some g) none out).2) ∧
    (∀ (env : List Iface) (l : Nat) (ifn g s : String) (out : List String),
      inet_pton4 s = some 0 →
      Event.warn l WarnMsg.ssmWithLen ∉ (add_mroute env l (some ifn) (some g) (some s) out).2) := by
  refine ⟨?_, ?_, ?_⟩
  · intro env l ifn g s out sa hin hp hz hc hsp hout
    rcases hss : splitSlash g with ⟨gs, ls⟩
    rcases ls with _ | ls'
    · rw [hss] at hsp
      simp at hsp
    · have hh : mroute4_head env l ifn g (some s)
          = Except.error [Event.warn l WarnMsg.ssmWithLen] := by
        simp [mroute4_head, hin, srcParse, hp, hss, hz]
      simp [add_mroute, hout, hc, hh]
  · intro env l ifn g out
    exact add_mroute_wildcard_no_ssm env l ifn g none out rfl
  · intro env l ifn g s out hp
    exact add_mroute_wildcard_no_ssm env l ifn g (some s) out (by simp [srcParse, hp])

theorem ssm_with_len_rejected_witness :
    add_mroute demoEnv 4 (some "eth0") (some "239.1.0.0/16") (some "10.0.0.1") ["eth1"]
      = (1, [Event.warn 4 WarnMsg.ssmWithLen]) :=
  ssm_with_len_rejected.1 demoEnv 4 "eth0" "239.1.0.0/16" "10.0.0.1" ["eth1"]
    (ipv4Addr 10 0 0 1) (by decide) rfl (by decide) (by decide) rfl (by decide)

/-- Claim C1: for an mroute directive whose operands parse and whose
inbound interface resolves (`mroute4_head` succeeds), with K outbound
names resolving to a valid vif and M not: if K > 0 the trace contains
exactly one backend call, a `mroute4_add` whose record keeps the validated
inbound/source/group/len fields and whose TTL vector holds, at each vif,
the threshold of the (last) resolving outbound name with that vif and 0 at
every vif no outbound name resolves to; exactly M
"Invalid outbound IPv4 interface" warnings are emitted.  If K = 0 the
directive is rejected: result 1, no backend call, and the
"No valid outbound IPv4 interfaces" warning is emitted. -/
theorem mroute_ttl_vector (env : List Iface) (l : Nat) (ifn g : String)
    (src : Option String) (out : List String) (m : MRoute4)
    (hg : ':' ∉ g.data) (hout : out ≠ [])
    (hhead : mroute4_head env l ifn g src = Except.ok m) :
    (0 < (out.filter (fun n => resolvesVif env n)).length →
      (add_mroute env l (some ifn) (some g) src out).1 = 0 ∧
      ∃ m', (add_mroute env l (some ifn) (some g) src out).2.filter isBackend
              = [Event.mroute4_add m'] ∧
        m'.inbound = m.inbound ∧ m'.source = m.source ∧ m'.group = m.group ∧ m'.len = m.len ∧
        (∀ v, m'.ttl v = (lastResolvedThr env out v).getD 0) ∧
        (∀ v, (∀ n ∈ out, ∀ i, iface_find_by_name env n = some i → i.vif ≠ -1 → i.vif ≠ v) →
          m'.ttl v = 0)) ∧
    ((out.filter (fun n => resolvesVif env n)).length = 0 →
      (add_mroute env l (some ifn) (some g) src out).1 = 1 ∧
      (add_mroute env l (some ifn) (some g) src out).2.filter isBackend = [] ∧
      Event.warn l WarnMsg.noValidOutbound4 ∈
        (add_mroute env l (some ifn) (some g) src out).2) ∧
    (add_mroute env l (some ifn) (some g) src out).2.countP isInvalidOutWarn
      = (out.filter (fun n => !(resolvesVif env n))).length := by
  have hred : add_mroute env l (some ifn) (some g) src out
      = add_mroute_tail env l ifn m out := by
    simp [add_mroute, hout, hg, hhead]
  rw [hred]
  have hKM : (out.filter (fun n => resolvesVif env n)).length
      + (out.filter (fun n => !(resolvesVif env n))).length = out.length :=
    filterSplitLength _ out
  have htot := outboundLoop_total env l m.inbound ifn out (out.length : Int) m.ttl
  have httl := outboundLoop_ttl env l m.inbound ifn out (out.length : Int) m.ttl
  have hcnt := outboundLoop_count env l m.inbound ifn out (out.length : Int) m.ttl
  have hwo := outboundLoop_warnOnly env l m.inbound ifn out (out.length : Int) m.ttl
  have hz := mroute4_head_ok_ttl env l ifn g src m hhead
  by_cases hK : (out.filter (fun n => resolvesVif env n)).length = 0
  · have he0 : (outboundLoop env l m.inbound ifn out (out.length : Int) m.ttl).1 = 0 := by
      rw [htot]
      omega
    have htail : add_mroute_tail env l ifn m out
        = (1, (outboundLoop env l m.inbound ifn out (out.length : Int) m.ttl).2.2
            ++ [Event.warn l WarnMsg.noValidOutbound4]) := by
      simp [add_mroute_tail, he0]
    rw [htail]
    refine ⟨?_, ?_, ?_⟩
    · intro hpos
      exact absurd hK (by omega)
    · intro _
      refine ⟨rfl, ?_, ?_⟩
      · rw [List.filter_append, warnOnly_filter_isBackend hwo]
        rfl
      · exact List.mem_append_right _ (List.mem_singleton.mpr rfl)
    · rw [List.countP_append, hcnt]
      simp [List.countP_cons, isInvalidOutWarn]
  · have hne : (outboundLoop env l m.inbound ifn out (out.length : Int) m.ttl).1 ≠ 0 := by
      rw [htot]
      omega
    have htail : add_mroute_tail env l ifn m out
        = (0, (outboundLoop env l m.inbound ifn out (out.length : Int) m.ttl).2.2
            ++ [Event.mroute4_add
                { m with
                  ttl := (outboundLoop env l m.inbound ifn out (out.length : Int) m.ttl).2.1 }]) := by
      simp [add_mroute_tail, hne]
    rw [htail]
    refine ⟨?_, ?_, ?_⟩
    · intro _
      refine ⟨rfl,
        { m with ttl := (outboundLoop env l m.inbound ifn out (out.length : Int) m.ttl).2.1 },
        ?_, rfl, rfl, rfl, rfl, ?_, ?_⟩
      · rw [List.filter_append, warnOnly_filter_isBackend hwo]
        rfl
      · intro v
        show (outboundLoop env l m.inbound ifn out (out.length : Int) m.ttl).2.1 v = _
        rw [httl v]
        rcases lastResolvedThr env out v with _ | t
        · simp [hz v]
        · rfl
      · intro v hv
        show (outboundLoop env l m.inbound ifn out (out.length : Int) m.ttl).2.1 v = 0
        rw [httl v, lastResolvedThr_none env v out hv]
        exact hz v
    · intro h0
      exact absurd h0 hK
    · rw [List.countP_append, hcnt]
      simp [List.countP_cons, isInvalidOutWarn]

theorem mroute_ttl_vector_witness :
    (add_mroute demoEnv 1 (some "eth0") (some "239.1.1.1") (some "10.0.0.1")
        ["eth1", "foo", "eth2"]).1 = 0 ∧
    (add_mroute demoEnv 1 (some "eth0") (some "239.1.1.1") (some "10.0.0.1")
        ["eth1", "foo", "eth2"]).2.countP isInvalidOutWarn = 1 ∧
    ∃ m', (add_mroute demoEnv 1 (some "eth0") (some "239.1.1.1") (some "10.0.0.1")
        ["eth1", "foo", "eth2"]).2.filter isBackend = [Event.mroute4_add m'] ∧
      m'.ttl 1 = 5 ∧ m'.ttl 2 = 7 ∧ m'.ttl 0 = 0 ∧ m'.ttl 3 = 0 := by
  have h := mroute_ttl_vector demoEnv 1 "eth0" "239.1.1.1" (some "10.0.0.1")
    ["eth1", "foo", "eth2"]
    { inbound := 0, source := ipv4Addr 10 0 0 1, group := ipv4Addr 239 1 1 1, len := 0,
      ttl := fun _ => 0 }
    (by decide) (by decide) rfl
  obtain ⟨hA, _, hC⟩ := h
  obtain ⟨h0, m', hb, _, _, _, _, httl, _⟩ := hA (by decide)
  refine ⟨h0, ?_, m', hb, ?_, ?_, ?_, ?_⟩
  · rw [hC]
    decide
  · rw [httl 1]
    decide
  · rw [httl 2]
    decide
  · rw [httl 0]
    decide
  · rw [httl 3]
    decide
